import Mathlib

/-!
# Verification of the SIR simulation engines in `src/main.py`

Shallow embedding of the two simulation engines of the repository:

* `StochasticSIR` — the Gillespie event-driven simulation (`src/main.py`
  lines 5–98).  Python floats are modelled as exact rationals `ℚ`, the
  compartment counts as integers `ℤ`.  The two numpy random sources
  (`np.random.exponential`, `np.random.uniform(0, 1)`) are modelled as two
  injected draw streams `ℕ → ℚ`, one value consumed per call, exactly as the
  loop consumes them.  The `while` loop has no static iteration bound, so it
  is embedded with explicit fuel; fuel exhaustion is a distinguished exit
  kind, and the chosen fuel `2*|S0| + |I0| + 2` dominates the loop's actual
  iteration count in every regime exercised by the claims.
* `ContinuousSIR` — the fixed-grid RK4 integrator (`src/main.py`
  lines 128–183), again over `ℚ`.

Python exceptions actually raised by the source are embedded as explicit
error outcomes: `1 / probabilities_sum` and the `S/N` normalisation raise
`ZeroDivisionError` on a zero denominator, `np.random.exponential` raises
`ValueError` on a negative scale, `np.linspace` raises `ValueError` on a
negative sample count, and `SIR[0] = ...` raises `IndexError` on an empty
array.
-/

namespace SIRModel

/-- The Python exceptions that the constructor / run bodies can actually
raise, used as explicit error outcomes of the embedding. -/
inductive PyErr where
  | zeroDivisionError
  | valueError
  | indexError
deriving DecidableEq, Repr

/-! ## The stochastic engine (`class StochasticSIR`, `src/main.py` 5–98) -/

/-- One compartment record `{'S':…,'I':…,'R':…,'N':…}`: the shape of both
`self.current_SIR` and of one appended row of the per-key trajectory lists
`self.SIR` (which move in lockstep, so the dict of lists is embedded as a
single list of rows). -/
structure Counts where
  S : ℤ
  I : ℤ
  R : ℤ
  N : ℤ
deriving DecidableEq, Repr

/-- Default row used by positional (`getD`) indexing of trajectories. -/
def cZero : Counts := ⟨0, 0, 0, 0⟩

/-- The state of a `StochasticSIR` instance: `current_SIR`, the trajectory
`self.SIR` (list of rows), the parameters, and the time list `self.t`. -/
structure StochasticSIR where
  currentSIR : Counts
  SIR : List Counts
  beta : ℚ
  gamma : ℚ
  t : List ℚ
  tmax : ℚ
deriving DecidableEq

/-- `__init__` together with `initialize` (`src/main.py` 6–21): unpack the
triple, set `current_SIR` with `N = S+I+R`, start the trajectory with the
initial row and the time list with `[0]`.  No parameter is validated. -/
def StochasticSIR.init (initialSIR : ℤ × ℤ × ℤ) (beta gamma tmax : ℚ) :
    StochasticSIR :=
  let (S, I, R) := initialSIR
  { currentSIR := ⟨S, I, R, S + I + R⟩
    SIR := [⟨S, I, R, S + I + R⟩]
    beta := beta
    gamma := gamma
    t := [0]
    tmax := tmax }

/-- `infection_event` (`src/main.py` 23–29): `S -= 1`, `I += 1`. -/
def StochasticSIR.infectionEvent (m : StochasticSIR) : StochasticSIR :=
  { m with currentSIR :=
      { m.currentSIR with S := m.currentSIR.S - 1, I := m.currentSIR.I + 1 } }

/-- `recovery_event` (`src/main.py` 31–37): `I -= 1`, `R += 1`. -/
def StochasticSIR.recoveryEvent (m : StochasticSIR) : StochasticSIR :=
  { m with currentSIR :=
      { m.currentSIR with I := m.currentSIR.I - 1, R := m.currentSIR.R + 1 } }

/-- `update_SIR` (`src/main.py` 39–48): append the current values to the
trajectory, recomputing the appended `N` as `S + I + R`. -/
def StochasticSIR.updateSIR (m : StochasticSIR) : StochasticSIR :=
  { m with SIR := m.SIR ++
      [⟨m.currentSIR.S, m.currentSIR.I, m.currentSIR.R,
        m.currentSIR.S + m.currentSIR.I + m.currentSIR.R⟩] }

/-- `probabilities[0] = self.beta * S * I / N` (`src/main.py` 80). -/
def rateInfect (m : StochasticSIR) : ℚ :=
  m.beta * m.currentSIR.S * m.currentSIR.I / m.currentSIR.N

/-- `probabilities[1] = self.gamma * I` (`src/main.py` 80). -/
def rateRecover (m : StochasticSIR) : ℚ := m.gamma * m.currentSIR.I

/-- `probabilities_sum = sum(probabilities)` (`src/main.py` 81). -/
def rateTotal (m : StochasticSIR) : ℚ := rateInfect m + rateRecover m

/-- `self.t.append(self.t[-1] + dt)` (`src/main.py` 85). -/
def StochasticSIR.advanceTime (m : StochasticSIR) (dt : ℚ) : StochasticSIR :=
  { m with t := m.t ++ [m.t.getLastD 0 + dt] }

/-- How one call of `StochasticSIR.run` ended: the `while` guard failed
(`horizon`), the `I == 0` break fired (`extinct`), a Python exception was
raised (`raisedZeroDivisionError` from `beta*S*I/N` or `1/probabilities_sum`
on a zero denominator, `raisedValueError` from `np.random.exponential` on a
negative scale), or the embedding's fuel ran out (`fuelExhausted`, never
reached in the regimes the claims quantify over). -/
inductive ExitKind where
  | horizon
  | extinct
  | raisedZeroDivisionError
  | raisedValueError
  | fuelExhausted
deriving DecidableEq, Repr

/-- The state of the object when `run` returned or raised, plus how it
ended. -/
structure RunResult where
  sim : StochasticSIR
  exit : ExitKind
deriving DecidableEq

/-- The `while self.t[-1] < self.tmax` loop of `run` (`src/main.py` 70–98),
consuming one exponential draw `edraw k` and one uniform draw `udraw k` per
iteration.  The successive guards mirror the source order: the `while`
guard, the `I == 0` break, the division `beta*S*I/N` (raises on `N = 0`),
the division `1/probabilities_sum` (raises on a zero sum), the
`np.random.exponential` scale check (raises on a negative scale); then the
time append, the `<=`-selection between the two events, and `update_SIR`. -/
def runLoop (edraw udraw : ℕ → ℚ) : ℕ → ℕ → StochasticSIR → RunResult
  | 0, _, m => ⟨m, .fuelExhausted⟩
  | fuel + 1, k, m =>
    if ¬ m.t.getLastD 0 < m.tmax then ⟨m, .horizon⟩
    else if m.currentSIR.I = 0 then ⟨m, .extinct⟩
    else if (m.currentSIR.N : ℚ) = 0 then ⟨m, .raisedZeroDivisionError⟩
    else if rateTotal m = 0 then ⟨m, .raisedZeroDivisionError⟩
    else if 1 / rateTotal m < 0 then ⟨m, .raisedValueError⟩
    else
      runLoop edraw udraw fuel (k + 1)
        ((if udraw k * rateTotal m ≤ rateInfect m
          then (m.advanceTime (edraw k)).infectionEvent
          else (m.advanceTime (edraw k)).recoveryEvent).updateSIR)

/-- `StochasticSIR(...).run()` with injected draw streams: construct the
object, then run the loop.  Fuel `2*|S0| + |I0| + 2` strictly dominates the
number of iterations whenever the initial counts are the claims'
non-negative ones (each iteration decreases `2*S + I` by exactly one and the
loop only continues while `I ≥ 1` and `S ≥ -1`). -/
def StochasticSIR.run (initialSIR : ℤ × ℤ × ℤ) (beta gamma tmax : ℚ)
    (edraw udraw : ℕ → ℚ) : RunResult :=
  let m := StochasticSIR.init initialSIR beta gamma tmax
  runLoop edraw udraw (2 * m.currentSIR.S.natAbs + m.currentSIR.I.natAbs + 2) 0 m

/-- The recorded trajectory (`self.SIR`) left by a `run` call. -/
def stochTraj (initialSIR : ℤ × ℤ × ℤ) (beta gamma tmax : ℚ)
    (edraw udraw : ℕ → ℚ) : List Counts :=
  (StochasticSIR.run initialSIR beta gamma tmax edraw udraw).sim.SIR

/-! ## The continuous engine (`class ContinuousSIR`, `src/main.py` 128–183) -/

/-- One row of the `n_points × 4` state array `self.sir`: normalized
`S, I, R` fractions and the population mass `N`. -/
structure SVec where
  S : ℚ
  I : ℚ
  R : ℚ
  N : ℚ
deriving DecidableEq, Repr

/-- Default row for positional (`getD`) indexing; equals the `np.zeros`
fill of the state array. -/
def svZero : SVec := ⟨0, 0, 0, 0⟩

/-- Componentwise vector addition of state rows (numpy broadcasting). -/
instance : Add SVec :=
  ⟨fun a b => ⟨a.S + b.S, a.I + b.I, a.R + b.R, a.N + b.N⟩⟩

/-- Scalar times state row (numpy broadcasting). -/
instance : HMul ℚ SVec SVec :=
  ⟨fun q v => ⟨q * v.S, q * v.I, q * v.R, q * v.N⟩⟩

/-- State row divided by a scalar (numpy broadcasting). -/
instance : HDiv SVec ℚ SVec :=
  ⟨fun v q => ⟨v.S / q, v.I / q, v.R / q, v.N / q⟩⟩

@[simp] lemma SVec.add_S (a b : SVec) : (a + b).S = a.S + b.S := rfl
@[simp] lemma SVec.add_I (a b : SVec) : (a + b).I = a.I + b.I := rfl
@[simp] lemma SVec.add_R (a b : SVec) : (a + b).R = a.R + b.R := rfl
@[simp] lemma SVec.add_N (a b : SVec) : (a + b).N = a.N + b.N := rfl
@[simp] lemma SVec.smul_S (q : ℚ) (v : SVec) : (q * v).S = q * v.S := rfl
@[simp] lemma SVec.smul_I (q : ℚ) (v : SVec) : (q * v).I = q * v.I := rfl
@[simp] lemma SVec.smul_R (q : ℚ) (v : SVec) : (q * v).R = q * v.R := rfl
@[simp] lemma SVec.smul_N (q : ℚ) (v : SVec) : (q * v).N = q * v.N := rfl
@[simp] lemma SVec.div_S (v : SVec) (q : ℚ) : (v / q).S = v.S / q := rfl
@[simp] lemma SVec.div_I (v : SVec) (q : ℚ) : (v / q).I = v.I / q := rfl
@[simp] lemma SVec.div_R (v : SVec) (q : ℚ) : (v / q).R = v.R / q := rfl
@[simp] lemma SVec.div_N (v : SVec) (q : ℚ) : (v / q).N = v.N / q := rfl

/-- The state of a `ContinuousSIR` instance after a successful
`__init__`: parameters, `n_points = int(tmax/dt)` and the first grid row
`self.sir[0]`. -/
structure ContinuousSIR where
  beta : ℚ
  gamma : ℚ
  tmax : ℚ
  dt : ℚ
  populationSize : ℚ
  nPoints : ℕ
  sir0 : SVec
deriving DecidableEq, Repr

/-- Python `int(q)`: truncation toward zero. -/
def pyTrunc (q : ℚ) : ℤ := if 0 ≤ q then ⌊q⌋ else ⌈q⌉

/-- `np.linspace(a, b, n)`: `n` evenly spaced samples including both
endpoints (`t_i = a + (b-a)*i/(n-1)`; for `n = 1` numpy returns `[a]`,
matched here because `x / 0 = 0` in `ℚ`). -/
def linspace (a b : ℚ) (n : ℕ) : List ℚ :=
  (List.range n).map fun (i : ℕ) => a + (b - a) * (i : ℚ) / ((n : ℚ) - 1)

/-- `ContinuousSIR.__init__` together with `initiate` (`src/main.py`
129–147).  The incidental failure modes of the source are embedded as
errors, in source order: `tmax/dt` raises `ZeroDivisionError` when
`dt = 0`; `np.linspace(0, tmax, n_points)` raises `ValueError` when
`n_points < 0`; the normalisation `S/N` raises `ZeroDivisionError` when
`N = S+I+R = 0`; and the assignment `SIR[0] = ...` raises `IndexError` when
the grid is empty (`n_points = 0`).  No other validation exists: `beta`,
`gamma` and the signs of the initial counts are accepted as given. -/
def ContinuousSIR.init (initialSIR : ℤ × ℤ × ℤ) (tmax dt beta gamma : ℚ)
    (populationSize : ℚ) : Except PyErr ContinuousSIR :=
  if dt = 0 then .error .zeroDivisionError
  else
    let nPoints : ℤ := pyTrunc (tmax / dt)
    if nPoints < 0 then .error .valueError
    else
      let (S, I, R) := initialSIR
      let N : ℤ := S + I + R
      if (N : ℚ) = 0 then .error .zeroDivisionError
      else if nPoints = 0 then .error .indexError
      else .ok
        { beta := beta
          gamma := gamma
          tmax := tmax
          dt := dt
          populationSize := populationSize
          nPoints := nPoints.toNat
          sir0 := ⟨(S : ℚ) / (N : ℚ), (I : ℚ) / (N : ℚ), (R : ℚ) / (N : ℚ), (N : ℚ)⟩ }

/-- The time grid `self.t = np.linspace(0, self.tmax, self.n_points)`
(`src/main.py` 136). -/
def ContinuousSIR.times (self : ContinuousSIR) : List ℚ :=
  linspace 0 self.tmax self.nPoints

/-- `get_derivatives` (`src/main.py` 149–163): the SIR vector field, with
`dN = dS + dI + dR`. -/
def ContinuousSIR.getDerivatives (self : ContinuousSIR) (y : SVec) : SVec :=
  let dS := -self.beta * y.S * y.I
  let dI := self.beta * y.S * y.I - self.gamma * y.I
  let dR := self.gamma * y.I
  let dN := dS + dI + dR
  ⟨dS, dI, dR, dN⟩

/-- One iteration of the `run` loop (`src/main.py` 174–181): the classical
RK4 update with step `self.dt`. -/
def ContinuousSIR.step (self : ContinuousSIR) (y : SVec) : SVec :=
  let k1 := self.dt * self.getDerivatives y
  let k2 := self.dt * self.getDerivatives (y + k1 / (2 : ℚ))
  let k3 := self.dt * self.getDerivatives (y + k2 / (2 : ℚ))
  let k4 := self.dt * self.getDerivatives (y + k3)
  y + (1 / 6 : ℚ) * (k1 + (2 : ℚ) * k2 + (2 : ℚ) * k3 + k4)

/-- Row `i` of the state array after `run`: the loop
`for i in range(len(self.t) - 1): self.sir[i+1] = ...` writes each row from
its predecessor, so the array's final content is the iterated step from
`self.sir[0]`. -/
def ContinuousSIR.row (self : ContinuousSIR) : ℕ → SVec
  | 0 => self.sir0
  | i + 1 => self.step (self.row i)

/-- `ContinuousSIR.run` (`src/main.py` 165–183): returns the full
`n_points`-row grid of states. -/
def ContinuousSIR.run (self : ContinuousSIR) : List SVec :=
  (List.range self.nPoints).map self.row

/-! ## List indexing helpers -/

lemma getD_append_left {α : Type} (l1 l2 : List α) (d : α) :
    ∀ j, j < l1.length → (l1 ++ l2).getD j d = l1.getD j d := by
  induction l1 with
  | nil => intro j h; simp at h
  | cons a t ih =>
    intro j h
    cases j with
    | zero => rfl
    | succ n =>
      simp only [List.cons_append, List.getD_cons_succ]
      exact ih n (by simpa using h)

lemma getD_concat_self {α : Type} (l : List α) (b d : α) :
    (l ++ [b]).getD l.length d = b := by
  induction l with
  | nil => rfl
  | cons a t ih => simp only [List.cons_append, List.length_cons, List.getD_cons_succ]; exact ih

lemma getLast?_eq_getD {α : Type} (l : List α) (r d : α)
    (h : l.getLast? = some r) : l.getD (l.length - 1) d = r := by
  induction l with
  | nil => simp at h
  | cons a t ih =>
    cases t with
    | nil => simp_all [List.getLast?]
    | cons b t2 =>
      rw [List.getLast?_cons_cons] at h
      have := ih h
      simpa using this

lemma mem_getD {α : Type} (l : List α) (d : α) :
    ∀ j, j < l.length → l.getD j d ∈ l := by
  induction l with
  | nil => intro j h; simp at h
  | cons a t ih =>
    intro j h
    cases j with
    | zero => exact List.mem_cons_self a t
    | succ n =>
      simp only [List.getD_cons_succ]
      exact List.mem_cons_of_mem a (ih n (by simpa using h))

lemma map_range_getD {α : Type} (f : ℕ → α) (n i : ℕ) (d : α) (h : i < n) :
    ((List.range n).map f).getD i d = f i := by
  have h2 : i < ((List.range n).map f).length := by simpa
  rw [List.getD_eq_getElem _ _ h2]
  simp

/-! ## Structural facts about the stochastic loop body -/

@[simp] lemma advanceTime_currentSIR (m : StochasticSIR) (d : ℚ) :
    (m.advanceTime d).currentSIR = m.currentSIR := rfl

@[simp] lemma advanceTime_SIR (m : StochasticSIR) (d : ℚ) :
    (m.advanceTime d).SIR = m.SIR := rfl

@[simp] lemma infectionEvent_SIR (m : StochasticSIR) :
    m.infectionEvent.SIR = m.SIR := rfl

@[simp] lemma recoveryEvent_SIR (m : StochasticSIR) :
    m.recoveryEvent.SIR = m.SIR := rfl

@[simp] lemma infectionEvent_currentSIR (m : StochasticSIR) :
    m.infectionEvent.currentSIR =
      ⟨m.currentSIR.S - 1, m.currentSIR.I + 1, m.currentSIR.R, m.currentSIR.N⟩ := rfl

@[simp] lemma recoveryEvent_currentSIR (m : StochasticSIR) :
    m.recoveryEvent.currentSIR =
      ⟨m.currentSIR.S, m.currentSIR.I - 1, m.currentSIR.R + 1, m.currentSIR.N⟩ := rfl

@[simp] lemma updateSIR_SIR (m : StochasticSIR) :
    m.updateSIR.SIR = m.SIR ++
      [⟨m.currentSIR.S, m.currentSIR.I, m.currentSIR.R,
        m.currentSIR.S + m.currentSIR.I + m.currentSIR.R⟩] := rfl

@[simp] lemma updateSIR_currentSIR (m : StochasticSIR) :
    m.updateSIR.currentSIR = m.currentSIR := rfl

/-- Every row the loop ever appends, and hence every row of the result's
trajectory given that the input's rows do, satisfies `S + I + R = N`:
`update_SIR` recomputes the appended `N` as `S + I + R`. -/
lemma runLoop_conserve (e u : ℕ → ℚ) :
    ∀ (fuel k : ℕ) (m : StochasticSIR),
      (∀ r ∈ m.SIR, r.S + r.I + r.R = r.N) →
      ∀ r ∈ (runLoop e u fuel k m).sim.SIR, r.S + r.I + r.R = r.N := by
  intro fuel
  induction fuel with
  | zero => intro k m hm; exact hm
  | succ f ih =>
    intro k m hm
    rw [runLoop]
    split
    · exact hm
    split
    · exact hm
    split
    · exact hm
    split
    · exact hm
    split
    · exact hm
    split
    · apply ih
      intro r hr
      simp only [updateSIR_SIR, infectionEvent_SIR, advanceTime_SIR,
        infectionEvent_currentSIR, advanceTime_currentSIR] at hr
      rcases List.mem_append.mp hr with hmem | hmem
      · exact hm r hmem
      · rcases List.mem_singleton.mp hmem with rfl
        rfl
    · apply ih
      intro r hr
      simp only [updateSIR_SIR, recoveryEvent_SIR, advanceTime_SIR,
        recoveryEvent_currentSIR, advanceTime_currentSIR] at hr
      rcases List.mem_append.mp hr with hmem | hmem
      · exact hm r hmem
      · rcases List.mem_singleton.mp hmem with rfl
        rfl

/-! ## Consecutive-row structure of the stochastic trajectory -/

/-- Relation between consecutive trajectory rows: exactly one event fired
between them (`infection_event` or `recovery_event`). -/
def eventStep (a b : Counts) : Prop :=
  (b.S = a.S - 1 ∧ b.I = a.I + 1 ∧ b.R = a.R) ∨
  (b.S = a.S ∧ b.I = a.I - 1 ∧ b.R = a.R + 1)

/-- The trajectory's last row agrees with `current_SIR` on `S`, `I`, `R`
(loop invariant: `update_SIR` always appends the current values). -/
def matchesCur (m : StochasticSIR) : Prop :=
  ∃ r, m.SIR.getLast? = some r ∧
    r.S = m.currentSIR.S ∧ r.I = m.currentSIR.I ∧ r.R = m.currentSIR.R

lemma getLast?_concat2 {α : Type} (l : List α) (b : α) :
    (l ++ [b]).getLast? = some b := by
  rw [List.getLast?_concat]

lemma chain'_concat_of {α : Type} (R : α → α → Prop) (l : List α) (a b : α)
    (hc : List.Chain' R l) (hl : l.getLast? = some a) (hab : R a b) :
    List.Chain' R (l ++ [b]) := by
  rw [List.chain'_append]
  refine ⟨hc, List.chain'_singleton b, ?_⟩
  intro x hx y hy
  rw [hl] at hx
  simp only [Option.mem_def, Option.some.injEq] at hx
  simp only [List.head?_cons, Option.mem_def, Option.some.injEq] at hy
  rw [← hx, ← hy]
  exact hab

/-- All rows but possibly the last have `I ≠ 0` (loop invariant: the loop
only appends after passing the `I == 0` break, so a recorded `I = 0` row is
never followed by another row). -/
def nonlastLive (l : List Counts) : Prop :=
  ∀ j, j + 1 < l.length → (l.getD j cZero).I ≠ 0

lemma nonlastLive_concat (l : List Counts) (b r : Counts)
    (hl : nonlastLive l) (hlast : l.getLast? = some r) (hr : r.I ≠ 0) :
    nonlastLive (l ++ [b]) := by
  intro j hj
  simp only [List.length_append, List.length_singleton] at hj
  have hjl : j < l.length := by omega
  rw [getD_append_left _ _ _ j hjl]
  rcases Nat.lt_or_ge (j + 1) l.length with h1 | h1
  · exact hl j h1
  · have hje : j = l.length - 1 := by omega
    subst hje
    rw [getLast?_eq_getD l r cZero hlast]
    exact hr

/-- The loop preserves the consecutive-event structure of the trajectory. -/
lemma runLoop_chain (e u : ℕ → ℚ) :
    ∀ (fuel k : ℕ) (m : StochasticSIR),
      List.Chain' eventStep m.SIR → matchesCur m →
      List.Chain' eventStep (runLoop e u fuel k m).sim.SIR := by
  intro fuel
  induction fuel with
  | zero => intro k m hc _; exact hc
  | succ f ih =>
    intro k m hc hmc
    obtain ⟨r, hlast, hS, hI, hR⟩ := hmc
    rw [runLoop]
    split
    · exact hc
    split
    · exact hc
    split
    · exact hc
    split
    · exact hc
    split
    · exact hc
    split
    · apply ih
      · simp only [updateSIR_SIR, infectionEvent_SIR, advanceTime_SIR,
          infectionEvent_currentSIR, advanceTime_currentSIR]
        apply chain'_concat_of eventStep _ r _ hc hlast
        left
        refine ⟨?_, ?_, ?_⟩ <;> simp [hS, hI, hR]
      · refine ⟨⟨m.currentSIR.S - 1, m.currentSIR.I + 1, m.currentSIR.R,
          m.currentSIR.S - 1 + (m.currentSIR.I + 1) + m.currentSIR.R⟩,
          ?_, rfl, rfl, rfl⟩
        simp only [updateSIR_SIR, infectionEvent_SIR, advanceTime_SIR,
          infectionEvent_currentSIR, advanceTime_currentSIR]
        exact getLast?_concat2 _ _
    · apply ih
      · simp only [updateSIR_SIR, recoveryEvent_SIR, advanceTime_SIR,
          recoveryEvent_currentSIR, advanceTime_currentSIR]
        apply chain'_concat_of eventStep _ r _ hc hlast
        right
        refine ⟨?_, ?_, ?_⟩ <;> simp [hS, hI, hR]
      · refine ⟨⟨m.currentSIR.S, m.currentSIR.I - 1, m.currentSIR.R + 1,
          m.currentSIR.S + (m.currentSIR.I - 1) + (m.currentSIR.R + 1)⟩,
          ?_, rfl, rfl, rfl⟩
        simp only [updateSIR_SIR, recoveryEvent_SIR, advanceTime_SIR,
          recoveryEvent_currentSIR, advanceTime_currentSIR]
        exact getLast?_concat2 _ _

/-- The loop preserves "all rows but the last are live": it only appends
from a state whose `I` is nonzero. -/
lemma runLoop_absorb (e u : ℕ → ℚ) :
    ∀ (fuel k : ℕ) (m : StochasticSIR),
      nonlastLive m.SIR → matchesCur m →
      nonlastLive (runLoop e u fuel k m).sim.SIR := by
  intro fuel
  induction fuel with
  | zero => intro k m hl _; exact hl
  | succ f ih =>
    intro k m hl hmc
    obtain ⟨r, hlast, hS, hI, hR⟩ := hmc
    rw [runLoop]
    split
    · exact hl
    split
    · exact hl
    rename_i hI0
    split
    · exact hl
    split
    · exact hl
    split
    · exact hl
    split
    · apply ih
      · simp only [updateSIR_SIR, infectionEvent_SIR, advanceTime_SIR,
          infectionEvent_currentSIR, advanceTime_currentSIR]
        exact nonlastLive_concat _ _ r hl hlast (by rw [hI]; exact hI0)
      · refine ⟨⟨m.currentSIR.S - 1, m.currentSIR.I + 1, m.currentSIR.R,
          m.currentSIR.S - 1 + (m.currentSIR.I + 1) + m.currentSIR.R⟩,
          ?_, rfl, rfl, rfl⟩
        simp only [updateSIR_SIR, infectionEvent_SIR, advanceTime_SIR,
          infectionEvent_currentSIR, advanceTime_currentSIR]
        exact getLast?_concat2 _ _
    · apply ih
      · simp only [updateSIR_SIR, recoveryEvent_SIR, advanceTime_SIR,
          recoveryEvent_currentSIR, advanceTime_currentSIR]
        exact nonlastLive_concat _ _ r hl hlast (by rw [hI]; exact hI0)
      · refine ⟨⟨m.currentSIR.S, m.currentSIR.I - 1, m.currentSIR.R + 1,
          m.currentSIR.S + (m.currentSIR.I - 1) + (m.currentSIR.R + 1)⟩,
          ?_, rfl, rfl, rfl⟩
        simp only [updateSIR_SIR, recoveryEvent_SIR, advanceTime_SIR,
          recoveryEvent_currentSIR, advanceTime_currentSIR]
        exact getLast?_concat2 _ _

/-- Consecutive-index form of `List.Chain'`, in `getD` indexing. -/
lemma chain'_getD {R : Counts → Counts → Prop} {l : List Counts}
    (hc : List.Chain' R l) (j : ℕ) (hj : j + 1 < l.length) :
    R (l.getD j cZero) (l.getD (j + 1) cZero) := by
  rw [List.getD_eq_getElem _ _ (by omega : j < l.length),
    List.getD_eq_getElem _ _ hj]
  exact List.chain'_iff_get.mp hc j (by omega)

/-- A stepwise non-increasing integer quantity is non-increasing across the
whole list. -/
lemma stepwise_le (l : List Counts) (f : Counts → ℤ)
    (h : ∀ j, j + 1 < l.length → f (l.getD (j + 1) cZero) ≤ f (l.getD j cZero)) :
    ∀ j k, j ≤ k → k < l.length → f (l.getD k cZero) ≤ f (l.getD j cZero) := by
  intro j k hjk
  induction hjk with
  | refl => intro _; exact le_rfl
  | step hn ih =>
    intro hk
    exact le_trans (h _ hk) (ih (by omega))

/-! ## Algebraic facts about the continuous engine -/

/-- The `N`-component of `get_derivatives` is identically zero:
`dN = dS + dI + dR = -βSI + (βSI - γI) + γI = 0` for every input. -/
lemma getDerivatives_N (self : ContinuousSIR) (y : SVec) :
    (self.getDerivatives y).N = 0 := by
  simp only [ContinuousSIR.getDerivatives]
  ring

/-- The `S + I + R` sum of `get_derivatives` is identically zero. -/
lemma getDerivatives_sum (self : ContinuousSIR) (y : SVec) :
    (self.getDerivatives y).S + (self.getDerivatives y).I +
      (self.getDerivatives y).R = 0 := by
  simp only [ContinuousSIR.getDerivatives]
  ring

/-- One RK4 step leaves the `N` column unchanged: every `k`'s `N`-component
is `dt * 0`. -/
lemma step_N (self : ContinuousSIR) (y : SVec) : (self.step y).N = y.N := by
  simp only [ContinuousSIR.step, SVec.add_N, SVec.smul_N, SVec.div_N,
    getDerivatives_N]
  ring

/-- One RK4 step leaves the sum `S + I + R` unchanged: every `k` adds a
zero-sum increment. -/
lemma step_sum (self : ContinuousSIR) (y : SVec) :
    (self.step y).S + (self.step y).I + (self.step y).R
      = y.S + y.I + y.R := by
  simp only [ContinuousSIR.step, ContinuousSIR.getDerivatives,
    SVec.add_S, SVec.add_I, SVec.add_R, SVec.smul_S, SVec.smul_I, SVec.smul_R,
    SVec.div_S, SVec.div_I, SVec.div_R]
  ring

/-- Every row of the result array carries the initial `N`. -/
lemma row_N (self : ContinuousSIR) : ∀ i, (self.row i).N = self.sir0.N := by
  intro i
  induction i with
  | zero => rfl
  | succ n ih => rw [ContinuousSIR.row, step_N, ih]

lemma run_length (self : ContinuousSIR) :
    (ContinuousSIR.run self).length = self.nPoints := by
  simp [ContinuousSIR.run]

lemma run_getD (self : ContinuousSIR) (i : ℕ) (h : i < self.nPoints) :
    (ContinuousSIR.run self).getD i svZero = self.row i :=
  map_range_getD _ _ _ _ h

/-! ## The spec's own statement of the RK4 scheme (for the refinement
claim): written from the words of §4.2 of the specification, to be compared
with the embedding of the source. -/

/-- The SIR derivative exactly as the spec's §4.2 derivative block writes
it: `dS = -beta*S*I`, `dI = beta*S*I - gamma*I`, `dR = gamma*I`,
`dN = dS + dI + dR`. -/
def specDerivative (beta gamma : ℚ) (y : SVec) : SVec :=
  ⟨-beta * y.S * y.I,
   beta * y.S * y.I - gamma * y.I,
   gamma * y.I,
   -beta * y.S * y.I + (beta * y.S * y.I - gamma * y.I) + gamma * y.I⟩

/-- The classical 4th-order Runge-Kutta update exactly as the spec's §4.2
block writes it: `k1 = dt*f(y)`, `k2 = dt*f(y + k1/2)`,
`k3 = dt*f(y + k2/2)`, `k4 = dt*f(y + k3)`,
`y' = y + (k1 + 2k2 + 2k3 + k4)/6`. -/
def specRK4Step (beta gamma dt : ℚ) (y : SVec) : SVec :=
  let k1 := dt * specDerivative beta gamma y
  let k2 := dt * specDerivative beta gamma (y + k1 / (2 : ℚ))
  let k3 := dt * specDerivative beta gamma (y + k2 / (2 : ℚ))
  let k4 := dt * specDerivative beta gamma (y + k3)
  y + (1 / 6 : ℚ) * (k1 + (2 : ℚ) * k2 + (2 : ℚ) * k3 + k4)

/-- The source's per-row update is exactly the spec's RK4 scheme. -/
lemma step_eq_specRK4 (self : ContinuousSIR) (y : SVec) :
    self.step y = specRK4Step self.beta self.gamma self.dt y := rfl

/-! ## Inversion of `ContinuousSIR.__init__` -/

lemma init_ok_elim {S0 I0 R0 : ℤ} {tmax dt beta gamma pop : ℚ}
    {s : ContinuousSIR}
    (h : ContinuousSIR.init (S0, I0, R0) tmax dt beta gamma pop = .ok s) :
    dt ≠ 0 ∧ 1 ≤ pyTrunc (tmax / dt) ∧ ((S0 + I0 + R0 : ℤ) : ℚ) ≠ 0 ∧
    s = { beta := beta, gamma := gamma, tmax := tmax, dt := dt,
          populationSize := pop, nPoints := (pyTrunc (tmax / dt)).toNat,
          sir0 := ⟨(S0 : ℚ) / ((S0 + I0 + R0 : ℤ) : ℚ),
                   (I0 : ℚ) / ((S0 + I0 + R0 : ℤ) : ℚ),
                   (R0 : ℚ) / ((S0 + I0 + R0 : ℤ) : ℚ),
                   ((S0 + I0 + R0 : ℤ) : ℚ)⟩ } := by
  simp only [ContinuousSIR.init] at h
  split at h
  · exact absurd h (by simp)
  next hdt =>
    split at h
    next hneg => exact absurd h (by simp)
    next hneg =>
      split at h
      next hN => exact absurd h (by simp)
      next hN =>
        split at h
        next hzero => exact absurd h (by simp)
        next hzero =>
          refine ⟨hdt, by omega, hN, ?_⟩
          exact (Except.ok.inj h).symm

lemma init_ok_intro (S0 I0 R0 : ℤ) (tmax dt beta gamma pop : ℚ)
    (hdt : dt ≠ 0) (hn : 1 ≤ pyTrunc (tmax / dt))
    (hN : ((S0 + I0 + R0 : ℤ) : ℚ) ≠ 0) :
    ContinuousSIR.init (S0, I0, R0) tmax dt beta gamma pop = .ok
      { beta := beta, gamma := gamma, tmax := tmax, dt := dt,
        populationSize := pop, nPoints := (pyTrunc (tmax / dt)).toNat,
        sir0 := ⟨(S0 : ℚ) / ((S0 + I0 + R0 : ℤ) : ℚ),
                 (I0 : ℚ) / ((S0 + I0 + R0 : ℤ) : ℚ),
                 (R0 : ℚ) / ((S0 + I0 + R0 : ℤ) : ℚ),
                 ((S0 + I0 + R0 : ℤ) : ℚ)⟩ } := by
  simp only [ContinuousSIR.init]
  rw [if_neg hdt, if_neg (by omega : ¬ pyTrunc (tmax / dt) < 0)]
  rw [if_neg hN, if_neg (by omega : ¬ pyTrunc (tmax / dt) = 0)]

/-- Positional form of the grid times: `t_i = tmax * i / (n_points - 1)`. -/
lemma times_getD (s : ContinuousSIR) (i : ℕ) (h : i < s.nPoints) :
    s.times.getD i 0 = s.tmax * i / ((s.nPoints : ℚ) - 1) := by
  unfold ContinuousSIR.times linspace
  rw [map_range_getD _ _ _ _ h]
  ring

/-! ## Concrete instances and evaluation lemmas for witnesses and
counterexamples -/

/-- A small concrete continuous engine state (as built by
`ContinuousSIR((1,1,0), tmax=2, dt=1, beta=1, gamma=1)`): two grid rows,
normalized initial condition `(1/2, 1/2, 0, 2)`. -/
def cDemo : ContinuousSIR := ⟨1, 1, 2, 1, 1000, 2, ⟨1 / 2, 1 / 2, 0, 2⟩⟩

/-- The state built by
`ContinuousSIR((999,1,0), tmax=1, dt=1/10, beta=2, gamma=2/5)`. -/
def c5s : ContinuousSIR :=
  ⟨2, 2 / 5, 1, 1 / 10, 1000, 10, ⟨999 / 1000, 1 / 1000, 0, 1000⟩⟩

/-- Two-iteration crash run from `(0,1,0)` with `beta = gamma = tmax = 1`
and both draw streams constantly `0`: the first uniform draw `0` selects an
infection at `S = 0` (`0 * rate_total <= rate_infect = 0`), the next
iteration has `rate_total = 1*(-1)*2/1 + 1*2 = 0` and the run dies in
`1 / probabilities_sum`. -/
lemma evalRunA :
    StochasticSIR.run (0, 1, 0) 1 1 1 (fun _ => 0) (fun _ => 0)
      = ⟨⟨⟨-1, 2, 0, 1⟩, [⟨0, 1, 0, 1⟩, ⟨-1, 2, 0, 1⟩], 1, 1, [0, 0], 1⟩,
         .raisedZeroDivisionError⟩ := by
  norm_num [StochasticSIR.run, StochasticSIR.init, runLoop, rateTotal,
    rateInfect, rateRecover, StochasticSIR.advanceTime, StochasticSIR.updateSIR,
    StochasticSIR.infectionEvent, StochasticSIR.recoveryEvent, List.getLastD]

/-- Two-iteration crash run from `(0,2,0)` with `beta = 2`, `gamma = 1`:
after the forced infection at `S = 0`, `rate_total = 2*(-1)*3/2 + 1*3 = 0`. -/
lemma evalRunB :
    StochasticSIR.run (0, 2, 0) 2 1 5 (fun _ => 0) (fun _ => 0)
      = ⟨⟨⟨-1, 3, 0, 2⟩, [⟨0, 2, 0, 2⟩, ⟨-1, 3, 0, 2⟩], 2, 1, [0, 0], 5⟩,
         .raisedZeroDivisionError⟩ := by
  norm_num [StochasticSIR.run, StochasticSIR.init, runLoop, rateTotal,
    rateInfect, rateRecover, StochasticSIR.advanceTime, StochasticSIR.updateSIR,
    StochasticSIR.infectionEvent, StochasticSIR.recoveryEvent, List.getLastD]

/-- One recovery then extinction from `(1,1,0)`. -/
lemma evalRunC :
    stochTraj (1, 1, 0) 1 1 10 (fun _ => 1) (fun _ => 1 / 2)
      = [⟨1, 1, 0, 2⟩, ⟨1, 0, 1, 2⟩] := by
  norm_num [stochTraj, StochasticSIR.run, StochasticSIR.init, runLoop, rateTotal,
    rateInfect, rateRecover, StochasticSIR.advanceTime, StochasticSIR.updateSIR,
    StochasticSIR.infectionEvent, StochasticSIR.recoveryEvent, List.getLastD]

/-- One recovery then extinction from `(2,1,0)`. -/
lemma evalRunD :
    stochTraj (2, 1, 0) 1 1 10 (fun _ => 1) (fun _ => 1 / 2)
      = [⟨2, 1, 0, 3⟩, ⟨2, 0, 1, 3⟩] := by
  norm_num [stochTraj, StochasticSIR.run, StochasticSIR.init, runLoop, rateTotal,
    rateInfect, rateRecover, StochasticSIR.advanceTime, StochasticSIR.updateSIR,
    StochasticSIR.infectionEvent, StochasticSIR.recoveryEvent, List.getLastD]

/-- One recovery then extinction from `(1,1,0)` with `gamma = 2`. -/
lemma evalRunE :
    stochTraj (1, 1, 0) 1 2 10 (fun _ => 1) (fun _ => 1)
      = [⟨1, 1, 0, 2⟩, ⟨1, 0, 1, 2⟩] := by
  norm_num [stochTraj, StochasticSIR.run, StochasticSIR.init, runLoop, rateTotal,
    rateInfect, rateRecover, StochasticSIR.advanceTime, StochasticSIR.updateSIR,
    StochasticSIR.infectionEvent, StochasticSIR.recoveryEvent, List.getLastD]

/-- Construction with valid grid parameters succeeds and stores the
parameters as given. -/
lemma evalInitC5 :
    ContinuousSIR.init (999, 1, 0) 1 (1 / 10) 2 (2 / 5) 1000 = .ok c5s := by
  norm_num [ContinuousSIR.init, pyTrunc, c5s]
  rfl

/-! ## The claims -/

/-- C1: Conservation of population.  Every recorded sample of
`StochasticSIR.run()` satisfies `S + I + R = N` exactly (integer equality,
any parameters, any draw streams); and for every continuous engine state,
every consecutive pair of grid rows produced by `ContinuousSIR.run()`
changes the `N` column by less than `1e-6` (in this exact-arithmetic
embedding the per-step change is exactly zero). -/
theorem conservation_C1 :
    (∀ (initialSIR : ℤ × ℤ × ℤ) (beta gamma tmax : ℚ) (e u : ℕ → ℚ) (j : ℕ),
      j < (stochTraj initialSIR beta gamma tmax e u).length →
      ((stochTraj initialSIR beta gamma tmax e u).getD j cZero).S +
        ((stochTraj initialSIR beta gamma tmax e u).getD j cZero).I +
        ((stochTraj initialSIR beta gamma tmax e u).getD j cZero).R =
        ((stochTraj initialSIR beta gamma tmax e u).getD j cZero).N) ∧
    (∀ (self : ContinuousSIR) (i : ℕ),
      i + 1 < (ContinuousSIR.run self).length →
      |((ContinuousSIR.run self).getD (i + 1) svZero).N -
        ((ContinuousSIR.run self).getD i svZero).N| < 1 / 1000000) := by
  constructor
  · rintro ⟨S0, I0, R0⟩ beta gamma tmax e u j hj
    exact runLoop_conserve e u _ 0 _
      (by
        intro r hr
        rcases List.mem_singleton.mp hr with rfl
        rfl)
      _ (mem_getD _ _ j hj)
  · intro self i hi
    rw [run_length] at hi
    rw [run_getD self (i + 1) hi, run_getD self i (by omega),
      ContinuousSIR.row, step_N]
    norm_num

/-- Witness for C1: the two-row run from `(1,1,0)` and one RK4 step of a
concrete engine state. -/
theorem conservation_C1_witness :
    (0 < (stochTraj (1, 1, 0) 1 1 10 (fun _ => 1) (fun _ => 1 / 2)).length ∧
      ((stochTraj (1, 1, 0) 1 1 10 (fun _ => 1) (fun _ => 1 / 2)).getD 0 cZero).S +
        ((stochTraj (1, 1, 0) 1 1 10 (fun _ => 1) (fun _ => 1 / 2)).getD 0 cZero).I +
        ((stochTraj (1, 1, 0) 1 1 10 (fun _ => 1) (fun _ => 1 / 2)).getD 0 cZero).R =
        ((stochTraj (1, 1, 0) 1 1 10 (fun _ => 1) (fun _ => 1 / 2)).getD 0 cZero).N) ∧
    (0 + 1 < (ContinuousSIR.run cDemo).length ∧
      |((ContinuousSIR.run cDemo).getD (0 + 1) svZero).N -
        ((ContinuousSIR.run cDemo).getD 0 svZero).N| < 1 / 1000000) :=
  ⟨⟨by rw [evalRunC]; norm_num,
    conservation_C1.1 (1, 1, 0) 1 1 10 (fun _ => 1) (fun _ => 1 / 2) 0
      (by rw [evalRunC]; norm_num)⟩,
   ⟨by rw [run_length]; norm_num [cDemo],
    conservation_C1.2 cDemo 0 (by rw [run_length]; norm_num [cDemo])⟩⟩

/-- C10: In exact arithmetic each RK4 step of `ContinuousSIR` preserves the
quantity `(S + I + R) - N` exactly: because `dS + dI + dR = dN`
identically, every combined increment adds equal amounts to `S + I + R`
and to `N`, so the per-step mass deviation is exactly zero. -/
theorem rk4_mass_exact_C10 :
    ∀ (self : ContinuousSIR) (y : SVec),
      ((self.step y).S + (self.step y).I + (self.step y).R) - (self.step y).N
        = (y.S + y.I + y.R) - y.N := by
  intro self y
  rw [step_sum, step_N]

/-- C7: `ContinuousSIR.run()` returns the full grid of states
(`n_points` rows), and each successive row is obtained from its predecessor
by exactly the classical 4th-order Runge-Kutta update of the spec
(`specRK4Step`, written from the spec's §4.2 equations over the SIR
derivative with `dN = dS + dI + dR`). -/
theorem rk4_scheme_C7 :
    ∀ self : ContinuousSIR,
      (ContinuousSIR.run self).length = self.nPoints ∧
      ∀ i, i + 1 < (ContinuousSIR.run self).length →
        (ContinuousSIR.run self).getD (i + 1) svZero =
          specRK4Step self.beta self.gamma self.dt
            ((ContinuousSIR.run self).getD i svZero) := by
  intro self
  refine ⟨run_length self, ?_⟩
  intro i hi
  rw [run_length] at hi
  rw [run_getD self (i + 1) hi, run_getD self i (by omega),
    ContinuousSIR.row, step_eq_specRK4]

/-- Witness for C7 at the concrete engine state `cDemo`. -/
theorem rk4_scheme_C7_witness :
    (ContinuousSIR.run cDemo).length = cDemo.nPoints ∧
    (0 + 1 < (ContinuousSIR.run cDemo).length ∧
      (ContinuousSIR.run cDemo).getD (0 + 1) svZero =
        specRK4Step cDemo.beta cDemo.gamma cDemo.dt
          ((ContinuousSIR.run cDemo).getD 0 svZero)) :=
  ⟨(rk4_scheme_C7 cDemo).1,
   by rw [run_length]; norm_num [cDemo],
   (rk4_scheme_C7 cDemo).2 0 (by rw [run_length]; norm_num [cDemo])⟩

/-- C8: Over the full trajectory recorded by `StochasticSIR.run()` — any
parameters, any draw streams — the `S` sequence is non-increasing, the `R`
sequence is non-decreasing, and between every pair of consecutive recorded
samples `I` changes by exactly `+1` or `-1`. -/
theorem monotone_C8 :
    ∀ (initialSIR : ℤ × ℤ × ℤ) (beta gamma tmax : ℚ) (e u : ℕ → ℚ),
      (∀ j k, j ≤ k → k < (stochTraj initialSIR beta gamma tmax e u).length →
        ((stochTraj initialSIR beta gamma tmax e u).getD k cZero).S ≤
          ((stochTraj initialSIR beta gamma tmax e u).getD j cZero).S) ∧
      (∀ j k, j ≤ k → k < (stochTraj initialSIR beta gamma tmax e u).length →
        ((stochTraj initialSIR beta gamma tmax e u).getD j cZero).R ≤
          ((stochTraj initialSIR beta gamma tmax e u).getD k cZero).R) ∧
      (∀ j, j + 1 < (stochTraj initialSIR beta gamma tmax e u).length →
        ((stochTraj initialSIR beta gamma tmax e u).getD (j + 1) cZero).I =
            ((stochTraj initialSIR beta gamma tmax e u).getD j cZero).I + 1 ∨
          ((stochTraj initialSIR beta gamma tmax e u).getD (j + 1) cZero).I =
            ((stochTraj initialSIR beta gamma tmax e u).getD j cZero).I - 1) := by
  rintro ⟨S0, I0, R0⟩ beta gamma tmax e u
  have hchain :
      List.Chain' eventStep (stochTraj (S0, I0, R0) beta gamma tmax e u) := by
    apply runLoop_chain e u _ 0
    · exact List.chain'_singleton _
    · exact ⟨⟨S0, I0, R0, S0 + I0 + R0⟩, by simp [StochasticSIR.init], rfl, rfl, rfl⟩
  refine ⟨?_, ?_, ?_⟩
  · apply stepwise_le _ _
    intro j hj
    rcases chain'_getD hchain j hj with ⟨h1, _, _⟩ | ⟨h1, _, _⟩ <;> omega
  · intro j k hjk hk
    have h := stepwise_le (stochTraj (S0, I0, R0) beta gamma tmax e u)
      (fun c => -c.R) ?_ j k hjk hk
    · simpa using h
    · intro j2 hj2
      show -((stochTraj (S0, I0, R0) beta gamma tmax e u).getD (j2 + 1) cZero).R ≤
          -((stochTraj (S0, I0, R0) beta gamma tmax e u).getD j2 cZero).R
      rcases chain'_getD hchain j2 hj2 with ⟨_, _, h3⟩ | ⟨_, _, h3⟩ <;> omega
  · intro j hj
    rcases chain'_getD hchain j hj with ⟨_, h2, _⟩ | ⟨_, h2, _⟩
    · left; omega
    · right; omega

/-- Witness for C8: the two-row run from `(2,1,0)` (one recovery). -/
theorem monotone_C8_witness :
    (0 ≤ 1 ∧ 1 < (stochTraj (2, 1, 0) 1 1 10 (fun _ => 1) (fun _ => 1 / 2)).length) ∧
    ((stochTraj (2, 1, 0) 1 1 10 (fun _ => 1) (fun _ => 1 / 2)).getD 1 cZero).S ≤
      ((stochTraj (2, 1, 0) 1 1 10 (fun _ => 1) (fun _ => 1 / 2)).getD 0 cZero).S ∧
    ((stochTraj (2, 1, 0) 1 1 10 (fun _ => 1) (fun _ => 1 / 2)).getD 0 cZero).R ≤
      ((stochTraj (2, 1, 0) 1 1 10 (fun _ => 1) (fun _ => 1 / 2)).getD 1 cZero).R ∧
    (((stochTraj (2, 1, 0) 1 1 10 (fun _ => 1) (fun _ => 1 / 2)).getD (0 + 1) cZero).I =
        ((stochTraj (2, 1, 0) 1 1 10 (fun _ => 1) (fun _ => 1 / 2)).getD 0 cZero).I + 1 ∨
      ((stochTraj (2, 1, 0) 1 1 10 (fun _ => 1) (fun _ => 1 / 2)).getD (0 + 1) cZero).I =
        ((stochTraj (2, 1, 0) 1 1 10 (fun _ => 1) (fun _ => 1 / 2)).getD 0 cZero).I - 1) :=
  ⟨⟨by norm_num, by rw [evalRunD]; norm_num⟩,
   (monotone_C8 (2, 1, 0) 1 1 10 (fun _ => 1) (fun _ => 1 / 2)).1 0 1
     (by norm_num) (by rw [evalRunD]; norm_num),
   (monotone_C8 (2, 1, 0) 1 1 10 (fun _ => 1) (fun _ => 1 / 2)).2.1 0 1
     (by norm_num) (by rw [evalRunD]; norm_num),
   (monotone_C8 (2, 1, 0) 1 1 10 (fun _ => 1) (fun _ => 1 / 2)).2.2 0
     (by rw [evalRunD]; norm_num)⟩

/-- C9: Extinction is absorbing.  In every trajectory recorded by
`StochasticSIR.run()`, a row with `I = 0` is never followed by another
row; and from the all-recovered initial state `(0,0,100)`, with any
parameters and any draw streams, `run()` appends nothing beyond the
initial `t = 0` sample. -/
theorem absorbing_C9 :
    (∀ (initialSIR : ℤ × ℤ × ℤ) (beta gamma tmax : ℚ) (e u : ℕ → ℚ) (j : ℕ),
      j + 1 < (stochTraj initialSIR beta gamma tmax e u).length →
      ((stochTraj initialSIR beta gamma tmax e u).getD j cZero).I ≠ 0) ∧
    (∀ (beta gamma tmax : ℚ) (e u : ℕ → ℚ),
      stochTraj (0, 0, 100) beta gamma tmax e u = [⟨0, 0, 100, 100⟩]) := by
  constructor
  · rintro ⟨S0, I0, R0⟩ beta gamma tmax e u j hj
    apply runLoop_absorb e u _ 0 _ ?_ ?_ j hj
    · intro j2 hj2
      simp [StochasticSIR.init] at hj2
    · exact ⟨⟨S0, I0, R0, S0 + I0 + R0⟩, by simp [StochasticSIR.init], rfl, rfl, rfl⟩
  · intro beta gamma tmax e u
    show (runLoop e u 2 0
        (StochasticSIR.init (0, 0, 100) beta gamma tmax)).sim.SIR
      = [⟨0, 0, 100, 100⟩]
    rw [runLoop]
    split
    · norm_num [StochasticSIR.init]
    split
    · norm_num [StochasticSIR.init]
    · rename_i h2
      exact absurd rfl h2

/-- Witness for C9: the two-row run from `(1,1,0)` with `gamma = 2`, and
the `(0,0,100)` run with the repository's parameters. -/
theorem absorbing_C9_witness :
    (0 + 1 < (stochTraj (1, 1, 0) 1 2 10 (fun _ => 1) (fun _ => 1)).length ∧
      ((stochTraj (1, 1, 0) 1 2 10 (fun _ => 1) (fun _ => 1)).getD 0 cZero).I ≠ 0) ∧
    stochTraj (0, 0, 100) 2 (2 / 5) 50 (fun _ => 0) (fun _ => 0)
      = [⟨0, 0, 100, 100⟩] :=
  ⟨⟨by rw [evalRunE]; norm_num,
    absorbing_C9.1 (1, 1, 0) 1 2 10 (fun _ => 1) (fun _ => 1) 0
      (by rw [evalRunE]; norm_num)⟩,
   absorbing_C9.2 2 (2 / 5) 50 (fun _ => 0) (fun _ => 0)⟩

/-- C2 (failing-input evaluation): from the admissible initial state
`(0,1,0)` with `beta = gamma = tmax = 1`, exponential draws `0` (in the
support of the exponential) and uniform draws `0` (in numpy's support
`[0,1)` of `uniform(0,1)`), `run()` neither reaches `I = 0` nor the
horizon: the first draw selects an infection at `S = 0`, and the next
iteration raises `ZeroDivisionError` from `1 / probabilities_sum` with
`I = 2` and last recorded time `0 < tmax`. -/
theorem termination_violated_C2 :
    (StochasticSIR.run (0, 1, 0) 1 1 1 (fun _ => 0) (fun _ => 0)).exit
        = ExitKind.raisedZeroDivisionError ∧
    (StochasticSIR.run (0, 1, 0) 1 1 1 (fun _ => 0) (fun _ => 0)).sim.currentSIR.I
        = 2 ∧
    (StochasticSIR.run (0, 1, 0) 1 1 1 (fun _ => 0) (fun _ => 0)).sim.t.getLastD 0
        < 1 ∧
    ((0 : ℚ) ≤ 0 ∧ (0 : ℚ) < 1) := by
  rw [evalRunA]
  norm_num [List.getLastD]

/-- C3 (failing-input evaluation): the zero-total-rate state is reachable
with `I > 0` and there is no guard: from `(0,2,0)` with `beta = 2`,
`gamma = 1` and draws `0`, the loop reaches an iteration whose
`rate_total` is `0` while `I = 3 > 0`, and the run ends by the
`ZeroDivisionError` raised by `1 / probabilities_sum` itself — the
division is attempted, not prevented. -/
theorem zero_rate_unguarded_C3 :
    (StochasticSIR.run (0, 2, 0) 2 1 5 (fun _ => 0) (fun _ => 0)).exit
        = ExitKind.raisedZeroDivisionError ∧
    0 < (StochasticSIR.run (0, 2, 0) 2 1 5 (fun _ => 0) (fun _ => 0)).sim.currentSIR.I ∧
    rateTotal (StochasticSIR.run (0, 2, 0) 2 1 5 (fun _ => 0) (fun _ => 0)).sim
        = 0 := by
  rw [evalRunB]
  norm_num [rateTotal, rateInfect, rateRecover]

/-- C4 (counterexample): invalid parameters do not fail at construction.
`ContinuousSIR` accepts `beta = -1 ≤ 0`, `gamma = -2 ≤ 0` and returns a
constructed engine; `StochasticSIR.__init__` accepts negative counts and
non-positive `beta`, `gamma`, `tmax` and stores them unvalidated. -/
theorem no_validation_counterexample_C4 :
    ((-1 : ℚ) ≤ 0 ∧ (-2 : ℚ) ≤ 0) ∧
    ContinuousSIR.init (999, 1, 0) 1 (1 / 10) (-1) (-2) 1000
      = .ok ⟨-1, -2, 1, 1 / 10, 1000, 10, ⟨999 / 1000, 1 / 1000, 0, 1000⟩⟩ ∧
    (StochasticSIR.init (-5, -1, -3) (-2) (-1) (-7)).currentSIR
      = ⟨-5, -1, -3, -9⟩ ∧
    (StochasticSIR.init (-5, -1, -3) (-2) (-1) (-7)).beta = -2 := by
  refine ⟨by norm_num, ?_, ?_, rfl⟩
  · norm_num [ContinuousSIR.init, pyTrunc]
    rfl
  · norm_num [StochasticSIR.init]

/-- C4 (amended): construction performs no parameter validation.
`ContinuousSIR.__init__` succeeds exactly when `dt ≠ 0`,
`int(tmax/dt) ≥ 1` and `S0+I0+R0 ≠ 0` — independently of the signs of
`beta`, `gamma` and the initial counts (its failures are the incidental
`ZeroDivisionError`/`ValueError`/`IndexError` of the grid and
normalisation code, not a configuration check) — and
`StochasticSIR.__init__` always succeeds, storing the parameters as
given. -/
theorem no_validation_amended_C4 :
    (∀ (S0 I0 R0 : ℤ) (tmax dt beta gamma pop : ℚ),
      (∃ s, ContinuousSIR.init (S0, I0, R0) tmax dt beta gamma pop = .ok s) ↔
        dt ≠ 0 ∧ 1 ≤ pyTrunc (tmax / dt) ∧ S0 + I0 + R0 ≠ 0) ∧
    (∀ (S0 I0 R0 : ℤ) (beta gamma tmax : ℚ),
      StochasticSIR.init (S0, I0, R0) beta gamma tmax =
        ⟨⟨S0, I0, R0, S0 + I0 + R0⟩, [⟨S0, I0, R0, S0 + I0 + R0⟩],
         beta, gamma, [0], tmax⟩) := by
  constructor
  · intro S0 I0 R0 tmax dt beta gamma pop
    constructor
    · rintro ⟨s, hs⟩
      obtain ⟨h1, h2, h3, _⟩ := init_ok_elim hs
      refine ⟨h1, h2, fun hc => h3 ?_⟩
      rw [hc]
      norm_num
    · rintro ⟨h1, h2, h3⟩
      exact ⟨_, init_ok_intro S0 I0 R0 tmax dt beta gamma pop h1 h2
        (by exact_mod_cast h3)⟩
  · intro S0 I0 R0 beta gamma tmax
    rfl

/-- C5 (counterexample): the grid spacing is not `dt`.  For
`tmax = 1`, `dt = 1/10` the constructed grid has `t_1 - t_0 = 1/9 ≠ 1/10`:
`np.linspace(0, tmax, n_points)` spaces its points by
`tmax/(n_points - 1)`, not by the integration step `dt`. -/
theorem grid_spacing_counterexample_C5 :
    (ContinuousSIR.init (999, 1, 0) 1 (1 / 10) 2 (2 / 5) 1000).map
        (fun s => s.times.getD 1 0 - s.times.getD 0 0) = .ok (1 / 9) ∧
    (1 / 9 : ℚ) ≠ 1 / 10 := by
  constructor
  · rw [evalInitC5]
    simp only [Except.map]
    rw [times_getD c5s 1 (by norm_num [c5s]), times_getD c5s 0 (by norm_num [c5s])]
    norm_num [c5s]
  · norm_num

/-- C5 (amended): for every successfully constructed engine with
`0 < dt ≤ tmax`, the grid times are uniformly spaced over `[0, tmax]`
with spacing `tmax / (n_points - 1)` where `n_points = int(tmax/dt)`, and
this spacing is strictly greater than `dt` (so it never equals `dt`);
the RK4 update nevertheless steps with `dt`. -/
theorem grid_spacing_amended_C5 :
    ∀ (S0 I0 R0 : ℤ) (tmax dt beta gamma pop : ℚ) (s : ContinuousSIR),
      ContinuousSIR.init (S0, I0, R0) tmax dt beta gamma pop = .ok s →
      0 < dt → dt ≤ tmax →
      ∀ i, i + 1 < s.nPoints →
        s.times.getD (i + 1) 0 - s.times.getD i 0
            = tmax / ((s.nPoints : ℚ) - 1) ∧
        dt < tmax / ((s.nPoints : ℚ) - 1) := by
  intro S0 I0 R0 tmax dt beta gamma pop s hs hdt hdtmax i hi
  obtain ⟨h1, h2, h3, hs_eq⟩ := init_ok_elim hs
  have htmax : s.tmax = tmax := by rw [hs_eq]
  have hnp : s.nPoints = (pyTrunc (tmax / dt)).toNat := by rw [hs_eq]
  have hq0 : (0 : ℚ) ≤ tmax / dt := (div_pos (by linarith) hdt).le
  have hfl : pyTrunc (tmax / dt) = ⌊tmax / dt⌋ := by
    unfold pyTrunc
    rw [if_pos hq0]
  have hcast : ((s.nPoints : ℚ)) = ((⌊tmax / dt⌋ : ℤ) : ℚ) := by
    rw [hnp, hfl]
    norm_cast
    omega
  have hle : ((s.nPoints : ℚ)) ≤ tmax / dt := by
    rw [hcast]
    exact_mod_cast Int.floor_le _
  have hn2 : 2 ≤ s.nPoints := by omega
  have hn2q : (2 : ℚ) ≤ (s.nPoints : ℚ) := by exact_mod_cast hn2
  have hne : ((s.nPoints : ℚ)) - 1 ≠ 0 := by linarith
  constructor
  · rw [times_getD s (i + 1) hi, times_getD s i (by omega), htmax]
    push_cast
    field_simp
    ring
  · have hpos : (0 : ℚ) < (s.nPoints : ℚ) - 1 := by linarith
    rw [lt_div_iff₀ hpos]
    have hnd : (s.nPoints : ℚ) * dt ≤ tmax := (le_div_iff₀ hdt).mp hle
    nlinarith

/-- Witness for the amended C5 at `tmax = 1`, `dt = 1/10`. -/
theorem grid_spacing_amended_C5_witness :
    (ContinuousSIR.init (999, 1, 0) 1 (1 / 10) 2 (2 / 5) 1000 = .ok c5s ∧
      (0 : ℚ) < 1 / 10 ∧ (1 / 10 : ℚ) ≤ 1 ∧ 0 + 1 < c5s.nPoints) ∧
    (c5s.times.getD (0 + 1) 0 - c5s.times.getD 0 0
        = 1 / ((c5s.nPoints : ℚ) - 1) ∧
      (1 / 10 : ℚ) < 1 / ((c5s.nPoints : ℚ) - 1)) :=
  ⟨⟨evalInitC5, by norm_num, by norm_num, by norm_num [c5s]⟩,
   grid_spacing_amended_C5 999 1 0 1 (1 / 10) 2 (2 / 5) 1000 c5s evalInitC5
     (by norm_num) (by norm_num) 0 (by norm_num [c5s])⟩

/-- C6 (counterexample): for `tmax = 1 > 0`, `dt = 2 > 0` (so
`floor(tmax/dt) = 0`), `ContinuousSIR` does not produce a
`floor(tmax/dt)`-row grid: construction itself fails with `IndexError`
(`SIR[0] = ...` on the empty `np.zeros([0, 4])` array). -/
theorem grid_size_counterexample_C6 :
    ContinuousSIR.init (1, 1, 0) 1 2 1 1 1000 = .error .indexError ∧
    (0 : ℚ) < 1 ∧ (0 : ℚ) < 2 ∧ ⌊(1 : ℚ) / 2⌋ = 0 := by
  refine ⟨?_, by norm_num, by norm_num, by norm_num⟩
  norm_num [ContinuousSIR.init, pyTrunc]

/-- C6 (amended): for `0 < dt ≤ tmax` and `S0 + I0 + R0 ≠ 0`,
construction succeeds, `ContinuousSIR.run()` produces exactly
`floor(tmax/dt)` samples, and the first sample is the normalized initial
condition `(S0/N0, I0/N0, R0/N0, N0)` with `N0 = S0 + I0 + R0`. -/
theorem grid_size_amended_C6 :
    ∀ (S0 I0 R0 : ℤ) (tmax dt beta gamma pop : ℚ),
      0 < dt → dt ≤ tmax → S0 + I0 + R0 ≠ 0 →
      ∃ s, ContinuousSIR.init (S0, I0, R0) tmax dt beta gamma pop = .ok s ∧
        ((ContinuousSIR.run s).length : ℤ) = ⌊tmax / dt⌋ ∧
        (ContinuousSIR.run s).getD 0 svZero =
          ⟨(S0 : ℚ) / ((S0 + I0 + R0 : ℤ) : ℚ),
           (I0 : ℚ) / ((S0 + I0 + R0 : ℤ) : ℚ),
           (R0 : ℚ) / ((S0 + I0 + R0 : ℤ) : ℚ),
           ((S0 + I0 + R0 : ℤ) : ℚ)⟩ := by
  intro S0 I0 R0 tmax dt beta gamma pop hdt hdtm hN
  have hq1 : (1 : ℚ) ≤ tmax / dt := by
    rw [le_div_iff₀ hdt]
    linarith
  have hfl : pyTrunc (tmax / dt) = ⌊tmax / dt⌋ := by
    unfold pyTrunc
    rw [if_pos (by linarith : (0 : ℚ) ≤ tmax / dt)]
  have h2 : 1 ≤ pyTrunc (tmax / dt) := by
    rw [hfl]
    exact Int.le_floor.mpr (by exact_mod_cast hq1)
  have hNe : ((S0 + I0 + R0 : ℤ) : ℚ) ≠ 0 := by exact_mod_cast hN
  refine ⟨_, init_ok_intro S0 I0 R0 tmax dt beta gamma pop (ne_of_gt hdt) h2 hNe,
    ?_, ?_⟩
  · rw [run_length]
    show (((pyTrunc (tmax / dt)).toNat : ℤ)) = ⌊tmax / dt⌋
    rw [hfl, Int.toNat_of_nonneg (by omega)]
  · rw [run_getD _ 0 (by show 0 < (pyTrunc (tmax / dt)).toNat; omega)]
    rfl

/-- Witness for the amended C6 at `(999,1,0)`, `tmax = 1`, `dt = 1/10`. -/
theorem grid_size_amended_C6_witness :
    ((0 : ℚ) < 1 / 10 ∧ (1 / 10 : ℚ) ≤ 1 ∧ (999 + 1 + 0 : ℤ) ≠ 0) ∧
    (∃ s, ContinuousSIR.init (999, 1, 0) 1 (1 / 10) 2 (2 / 5) 1000 = .ok s ∧
      ((ContinuousSIR.run s).length : ℤ) = ⌊(1 : ℚ) / (1 / 10)⌋ ∧
      (ContinuousSIR.run s).getD 0 svZero =
        ⟨(999 : ℚ) / ((999 + 1 + 0 : ℤ) : ℚ),
         (1 : ℚ) / ((999 + 1 + 0 : ℤ) : ℚ),
         (0 : ℚ) / ((999 + 1 + 0 : ℤ) : ℚ),
         ((999 + 1 + 0 : ℤ) : ℚ)⟩) :=
  ⟨⟨by norm_num, by norm_num, by norm_num⟩,
   grid_size_amended_C6 999 1 0 1 (1 / 10) 2 (2 / 5) 1000 (by norm_num)
     (by norm_num) (by norm_num)⟩

end SIRModel
